import Mathlib

/-!
Verification of the audio-analysis pipeline engine.

The pipeline engine lives in `sources/tools.py` (`ProcessService`, `Manager`,
`Client`), the provider adapters in `sources/ibm_realization.py`, and the
frontend loop in `app.py`.  We embed the engine shallowly:

* a `Queue` (channel) is identified by a natural-number id, and the contents
  of all channels are a map `ChanSt α : Nat → List α` (front of the list is
  the front of the FIFO);
* a `ProcessService` stores its two buffer references (`Option Nat`, with
  `none` for Python `None`);
* `Manager.__init__`'s wiring loop allocates fresh queue ids from a counter
  threaded through the construction;
* a worker handle records the stage whose `act` loop the spawned process
  executes, so `processes : List ProcessService`;
* fallible Python operations (indexing an empty list, calling a method on
  `None`) are modelled with `Option`/`Except`;
* blocking behaviour of `Queue.get` is modelled by evaluating the call on
  the channel state at the moment the call resolves: a `timedOut` outcome
  means the channel was still empty when the timeout expired, `blocks`
  means the call never returns.
-/

/-- State of all channels: queue id ↦ FIFO contents (head = front). -/
def ChanSt (α : Type) : Type := Nat → List α

/-- `queue.put(a)`: append `a` at the back of channel `cid`. -/
def chanPut {α : Type} (st : ChanSt α) (cid : Nat) (a : α) : ChanSt α :=
  fun c => if c = cid then st c ++ [a] else st c

/-- Embedding of `ProcessService` from `sources/tools.py`: the two buffer
references set during wiring (`None` before binding). -/
structure ProcessService where
  input_buffer : Option Nat
  output_buffer : Option Nat
deriving Repr, DecidableEq

/-- `ProcessService.set_input_buffer`: plain assignment of the input buffer. -/
def ProcessService.set_input_buffer (s : ProcessService) (b : Nat) : ProcessService :=
  { s with input_buffer := some b }

/-- `ProcessService.set_output_buffer`: plain assignment of the output buffer. -/
def ProcessService.set_output_buffer (s : ProcessService) (b : Nat) : ProcessService :=
  { s with output_buffer := some b }

/-- Embedding of `Manager`: the wired services and the recorded worker
handles (each handle remembers the stage whose `act` it runs). -/
structure Manager where
  services : List ProcessService
  processes : List ProcessService
deriving Repr, DecidableEq

/-- The loop body of `Manager.__init__`:
for each service, allocate a fresh output queue; the first service also gets
a fresh input queue, every later one receives the previous service's output
buffer.  `built` is `self.services` so far, `fresh` the next unused queue id.
`built` is empty exactly on the `key == 0` iteration. -/
def wireLoop : List ProcessService → List ProcessService → Nat → List ProcessService × Nat
  | built, [], fresh => (built, fresh)
  | built, svc :: rest, fresh =>
      let output_buffer := fresh
      match built.getLast? with
      | none =>
          let input_buffer := fresh + 1
          let svc1 := (svc.set_input_buffer input_buffer).set_output_buffer output_buffer
          wireLoop (built ++ [svc1]) rest (fresh + 2)
      | some last =>
          let svc1 := { svc.set_output_buffer output_buffer with
                          input_buffer := last.output_buffer }
          wireLoop (built ++ [svc1]) rest (fresh + 1)

/-- `Manager.__init__(services)`: wire the stages, start with empty process
list.  Returns the manager and the next unused queue id. -/
def managerInit (services : List ProcessService) (fresh : Nat) : Manager × Nat :=
  let w := wireLoop [] services fresh
  ({ services := w.1, processes := [] }, w.2)

/-- `Manager.start`: spawn one process per service (target `service.act`)
and append each handle to `processes`. -/
def Manager.start (m : Manager) : Manager :=
  { m with processes := m.processes ++ m.services }

/-- `Manager.__enter__`: its own copy of the spawn loop (same body as
`start`), returning `self`. -/
def Manager.enter (m : Manager) : Manager :=
  { m with processes := m.processes ++ m.services }

/-- `Manager.__exit__`: `pass`. -/
def Manager.exitCtx (m : Manager) (_exc_type _exc_val _exc_tb : Option Unit) : Manager :=
  m

/-- `Manager.send(data)`: `self.services[0].input_buffer.put(data)`.
`none` models the Python exception when `services` is empty (`IndexError`)
or the first stage is unbound (`AttributeError` on `None.put`). -/
def Manager.send {α : Type} (m : Manager) (st : ChanSt α) (data : α) : Option (ChanSt α) :=
  match m.services.head? with
  | none => none
  | some s =>
      match s.input_buffer with
      | none => none
      | some cid => some (chanPut st cid data)

/-- Outcome of `Manager.receive`. -/
inductive RecvOutcome (α : Type) where
  /-- `buffer.get` returned a unit. -/
  | got (a : α)
  /-- The method returned Python `None` (the "no data" marker). -/
  | noneVal
  /-- `buffer.get(True, timeout)` raised `queue.Empty` after the timeout. -/
  | timedOut
  /-- `buffer.get(True, None)` blocks forever. -/
  | blocks
  /-- `IndexError` / `AttributeError` on an unwired manager. -/
  | error
deriving Repr, DecidableEq

/-- `Manager.receive(block, timeout)`:
`buffer = self.services[-1].output_buffer`; if `block or not buffer.empty()`
then `return buffer.get(block, timeout)` else `return None`.
`st` is the channel state at the moment the `get` call resolves. -/
def Manager.receive {α : Type} (m : Manager) (st : ChanSt α) (block : Bool)
    (timeout : Option Nat) : RecvOutcome α × ChanSt α :=
  match m.services.getLast? with
  | none => (.error, st)
  | some s =>
      match s.output_buffer with
      | none => (.error, st)
      | some cid =>
          if block || !(st cid).isEmpty then
            match st cid with
            | a :: _ => (.got a, fun c => if c = cid then (st cid).tail else st c)
            | [] =>
                match timeout with
                | some _ => (.timedOut, st)
                | none => (.blocks, st)
          else (.noneVal, st)

/-- Embedding of `Client` (extends `Manager` with a unique id and a running
flag, initialised to `False`). -/
structure Client where
  manager : Manager
  id : Nat
  running : Bool
deriving Repr, DecidableEq

/-- `Client.__init__(services)`: wire via the `Manager` constructor, record
a fresh identifier, `running = False`. -/
def clientInit (services : List ProcessService) (fresh : Nat) (uuid : Nat) : Client × Nat :=
  let w := managerInit services fresh
  ({ manager := w.1, id := uuid, running := false }, w.2)

/-- One iteration of `AnswerService.act`'s loop from
`sources/ibm_realization.py`: `text = self.input_buffer.get()` followed by
`self.output_buffer.put(text)`.  The iteration fires once a unit is
available on the input channel (`get` blocks until then); `none` models the
`AttributeError` on an unbound stage. -/
def AnswerService.actStep {α : Type} (s : ProcessService) (st : ChanSt α) :
    Option (ChanSt α) :=
  match s.input_buffer, s.output_buffer with
  | some i, some o =>
      match st i with
      | [] => some st
      | a :: _ =>
          some (chanPut (fun c => if c = i then (st i).tail else st c) o a)
  | _, _ => none

/-! ### Structure of the wiring loop -/

/-- Adjacency of a wired chain: the successor's input buffer is the
predecessor's output buffer. -/
def wiredAdj (a b : ProcessService) : Prop :=
  b.input_buffer = a.output_buffer

instance : DecidableRel wiredAdj := fun a b =>
  inferInstanceAs (Decidable (b.input_buffer = a.output_buffer))

/-- Tail of the wiring loop once at least one stage is wired (`prev` is the
most recently wired stage): every later stage receives `prev`'s output
buffer as its input and a fresh queue as its output. -/
def wireRest (prev : ProcessService) : List ProcessService → Nat → List ProcessService × Nat
  | [], fresh => ([], fresh)
  | svc :: rest, fresh =>
      let svc1 := { svc.set_output_buffer fresh with input_buffer := prev.output_buffer }
      let w := wireRest svc1 rest (fresh + 1)
      (svc1 :: w.1, w.2)

/-- One ranked alternative of the provider's transcription event: the
`'transcript'` entry of the alternative dict (`dict.get` yields `none`
when the key is absent). -/
structure TranscriptAlt where
  transcript : Option String
deriving Repr, DecidableEq

/-- `IbmSttService.receive_transcript` from `sources/ibm_realization.py`:
`return transcript[0].get('transcript')`.  Indexing the empty candidate
list raises `IndexError`. -/
def receive_transcript (transcript : List TranscriptAlt) : Except String (Option String) :=
  match transcript with
  | [] => Except.error "IndexError: list index out of range"
  | d :: _ => Except.ok d.transcript

/-- `IbmSttService.on_transcription`: compute `receive_transcript` and put
the message onto the output buffer; an exception propagates out of the
callback and terminates the worker. -/
def on_transcription (s : ProcessService) (st : ChanSt (Option String))
    (transcript : List TranscriptAlt) : Except String (ChanSt (Option String)) :=
  match receive_transcript transcript with
  | Except.error e => Except.error e
  | Except.ok msg =>
      match s.output_buffer with
      | none => Except.error "AttributeError: NoneType object has no attribute put"
      | some cid => Except.ok (chanPut st cid msg)

/-- One iteration of the frontend loop in `app.py` (`handle_connections`):
send the inbound message, lazily start the workers when not yet running,
poll `receive(False)`, substitute `b''` for a falsy result, and produce
exactly one outbound payload.  Payloads are byte strings (`List Nat`);
`none` models an uncaught Python exception ending the handler. -/
def handleIteration (c : Client) (st : ChanSt (List Nat)) (message : List Nat) :
    Option (Client × ChanSt (List Nat) × List Nat) :=
  match c.manager.send st message with
  | none => none
  | some st1 =>
      let c1 := if c.running then c
                else { c with running := true, manager := c.manager.start }
      match c1.manager.receive st1 false none with
      | (RecvOutcome.got d, st2) => some (c1, st2, if d = [] then [] else d)
      | (RecvOutcome.noneVal, st2) => some (c1, st2, [])
      | _ => none

/-- The response payload a frontend-loop iteration transmits to the peer. -/
def iterationResponse (c : Client) (st : ChanSt (List Nat)) (message : List Nat) :
    Option (List Nat) :=
  (handleIteration c st message).map (fun r => r.2.2)

/-- Round trip of a single identity (`AnswerService`) stage: wire it, start
from all-empty channels, `send x`, run one iteration of the worker loop,
then `receive(block=True)`. -/
def identityRoundTrip (x : List Nat) (fresh : Nat) : Option (RecvOutcome (List Nat)) :=
  let m := (managerInit [⟨none, none⟩] fresh).1
  let st0 : ChanSt (List Nat) := fun _ => []
  (m.send st0 x).bind fun st1 =>
    (m.services.head?.bind fun s => AnswerService.actStep s st1).bind fun st2 =>
      some (m.receive st2 true none).1

/-- Wiring postcondition of `Manager.__init__` on `stages` with fresh queue
ids from `fresh`: stage count preserved; adjacent stages share one channel
(successor input = predecessor output); every stage fully bound; stage 0's
input is the additional fresh entry queue `fresh + 1`, which is no stage's
output; the exit read by `receive` is the last stage's bound output channel
and differs from the entry; and no worker has been started. -/
def chainWiringSpec (stages : List ProcessService) (fresh : Nat) : Prop :=
  let m := (managerInit stages fresh).1
  m.services.length = stages.length ∧
  List.Chain' wiredAdj m.services ∧
  (∀ s ∈ m.services, s.input_buffer.isSome ∧ s.output_buffer.isSome) ∧
  (∃ s0, m.services.head? = some s0 ∧ s0.input_buffer = some (fresh + 1)) ∧
  (∀ s ∈ m.services, s.output_buffer ≠ some (fresh + 1)) ∧
  (∃ s cid, m.services.getLast? = some s ∧ s.output_buffer = some cid ∧ cid ≠ fresh + 1) ∧
  m.processes = []

/-- Non-blocking `receive` behaviour on a manager's exit channel: with the
exit channel empty, it returns Python `None` with the state untouched (no
block, no error); with the exit channel non-empty, it returns the front
unit immediately. -/
def recvPollSpec (α : Type) (m : Manager) : Prop :=
  ∃ s cid, m.services.getLast? = some s ∧ s.output_buffer = some cid ∧
    ∀ (st : ChanSt α) (t : Option Nat),
      (st cid = [] → m.receive st false t = (RecvOutcome.noneVal, st)) ∧
      (∀ d rest, st cid = d :: rest → (m.receive st false t).1 = RecvOutcome.got d)

/-- Blocking `receive` behaviour on a manager's exit channel: a unit
available by the time the call resolves is returned; an exit channel still
empty when the given timeout expires yields the `queue.Empty` timeout
failure, not a value. -/
def recvBlockSpec (α : Type) (m : Manager) : Prop :=
  ∃ s cid, m.services.getLast? = some s ∧ s.output_buffer = some cid ∧
    ∀ (st : ChanSt α),
      (∀ d rest, st cid = d :: rest → ∀ t, (m.receive st true t).1 = RecvOutcome.got d) ∧
      (st cid = [] → ∀ dur, (m.receive st true (some dur)).1 = RecvOutcome.timedOut)

/-- What one frontend-loop iteration does, given the session's entry
channel `ein` and exit channel `eout`: exactly one response is produced;
the chain is unchanged; the workers are started (once) exactly when the
session was not yet running; the inbound message is appended to the entry
channel; and the response is the front exit unit when it is truthy, the
empty payload otherwise. -/
def frontendIterSpec (c : Client) (st : ChanSt (List Nat)) (message : List Nat)
    (ein eout : Nat) : Prop :=
  ∃ c2 st2 resp, handleIteration c st message = some (c2, st2, resp) ∧
    c2.running = true ∧
    c2.manager.services = c.manager.services ∧
    c2.manager.processes =
      c.manager.processes ++ (if c.running then [] else c.manager.services) ∧
    st2 ein = st ein ++ [message] ∧
    resp = (match st eout with
            | [] => []
            | d :: _ => if d = [] then [] else d)

lemma wireLoop_concat (svcs : List ProcessService) :
    ∀ (built : List ProcessService) (b : ProcessService) (fresh : Nat),
      wireLoop (built ++ [b]) svcs fresh =
        ((built ++ [b]) ++ (wireRest b svcs fresh).1, (wireRest b svcs fresh).2) := by
  induction svcs with
  | nil =>
      intro built b fresh
      simp [wireLoop, wireRest]
  | cons svc rest ih =>
      intro built b fresh
      simp only [wireLoop, List.getLast?_concat, wireRest]
      rw [show (built ++ [b]) ++
            [{ svc.set_output_buffer fresh with input_buffer := b.output_buffer }] =
          (built ++ [b]) ++
            [{ svc.set_output_buffer fresh with input_buffer := b.output_buffer }] from rfl,
        ih]
      simp

/-- Unfolding `Manager.__init__` on a non-empty list: the first stage gets
the fresh entry queue `fresh + 1` as input and the fresh queue `fresh` as
output, and the rest are wired by `wireRest`. -/
lemma managerInit_cons (s0 : ProcessService) (rest : List ProcessService) (fresh : Nat) :
    managerInit (s0 :: rest) fresh =
      ({ services := (⟨some (fresh + 1), some fresh⟩ : ProcessService) ::
           (wireRest ⟨some (fresh + 1), some fresh⟩ rest (fresh + 2)).1,
         processes := [] },
       (wireRest ⟨some (fresh + 1), some fresh⟩ rest (fresh + 2)).2) := by
  have h0 : wireLoop [] (s0 :: rest) fresh =
      wireLoop ([] ++ [(⟨some (fresh + 1), some fresh⟩ : ProcessService)]) rest (fresh + 2) := rfl
  unfold managerInit
  rw [h0, wireLoop_concat]
  simp

lemma wireRest_length (svcs : List ProcessService) :
    ∀ (prev : ProcessService) (fresh : Nat),
      ((wireRest prev svcs fresh).1).length = svcs.length := by
  induction svcs with
  | nil => intro prev fresh; rfl
  | cons svc rest ih => intro prev fresh; simp [wireRest, ih]

lemma wireRest_chain (svcs : List ProcessService) :
    ∀ (prev : ProcessService) (fresh : Nat),
      List.Chain' wiredAdj (prev :: (wireRest prev svcs fresh).1) := by
  induction svcs with
  | nil => intro prev fresh; simp [wireRest]
  | cons svc rest ih =>
      intro prev fresh
      simp only [wireRest]
      rw [List.chain'_cons']
      refine ⟨?_, ih _ _⟩
      intro y hy
      simp only [List.head?_cons, Option.mem_def, Option.some.injEq] at hy
      subst hy
      rfl

lemma wireRest_bound (svcs : List ProcessService) :
    ∀ (prev : ProcessService) (fresh : Nat), prev.output_buffer.isSome →
      ∀ s ∈ (wireRest prev svcs fresh).1, s.input_buffer.isSome ∧ s.output_buffer.isSome := by
  induction svcs with
  | nil => intro prev fresh _ s hs; simp [wireRest] at hs
  | cons svc rest ih =>
      intro prev fresh hprev s hs
      simp only [wireRest, List.mem_cons] at hs
      rcases hs with rfl | hs
      · exact ⟨hprev, rfl⟩
      · exact ih { svc.set_output_buffer fresh with input_buffer := prev.output_buffer }
          (fresh + 1) rfl s hs

lemma wireRest_output_ge (svcs : List ProcessService) :
    ∀ (prev : ProcessService) (fresh : Nat),
      ∀ s ∈ (wireRest prev svcs fresh).1, ∃ j, fresh ≤ j ∧ s.output_buffer = some j := by
  induction svcs with
  | nil => intro prev fresh s hs; simp [wireRest] at hs
  | cons svc rest ih =>
      intro prev fresh s hs
      simp only [wireRest, List.mem_cons] at hs
      rcases hs with rfl | hs
      · exact ⟨fresh, le_refl _, rfl⟩
      · obtain ⟨j, hj, hjs⟩ := ih _ (fresh + 1) s hs
        exact ⟨j, by omega, hjs⟩

lemma managerInit_length (stages : List ProcessService) (fresh : Nat) :
    (managerInit stages fresh).1.services.length = stages.length := by
  cases stages with
  | nil => rfl
  | cons s0 rest => rw [managerInit_cons]; simp [wireRest_length]

lemma managerInit_processes (stages : List ProcessService) (fresh : Nat) :
    (managerInit stages fresh).1.processes = [] := by
  cases stages with
  | nil => rfl
  | cons s0 rest => rw [managerInit_cons]

lemma managerInit_chain (stages : List ProcessService) (fresh : Nat) :
    List.Chain' wiredAdj (managerInit stages fresh).1.services := by
  cases stages with
  | nil => simp [managerInit, wireLoop]
  | cons s0 rest => rw [managerInit_cons]; exact wireRest_chain rest _ (fresh + 2)

lemma managerInit_all_bound (stages : List ProcessService) (fresh : Nat) :
    ∀ s ∈ (managerInit stages fresh).1.services,
      s.input_buffer.isSome ∧ s.output_buffer.isSome := by
  cases stages with
  | nil => intro s hs; simp [managerInit, wireLoop] at hs
  | cons s0 rest =>
      rw [managerInit_cons]
      intro s hs
      simp only [List.mem_cons] at hs
      rcases hs with rfl | hs
      · exact ⟨rfl, rfl⟩
      · exact wireRest_bound rest ⟨some (fresh + 1), some fresh⟩ (fresh + 2) rfl s hs

lemma managerInit_head_input (stages : List ProcessService) (fresh : Nat)
    (hne : stages ≠ []) :
    ∃ s0, (managerInit stages fresh).1.services.head? = some s0 ∧
      s0.input_buffer = some (fresh + 1) := by
  obtain ⟨s0, rest, rfl⟩ := List.exists_cons_of_ne_nil hne
  rw [managerInit_cons]
  exact ⟨_, rfl, rfl⟩

lemma managerInit_output_ne_entry (stages : List ProcessService) (fresh : Nat) :
    ∀ s ∈ (managerInit stages fresh).1.services, s.output_buffer ≠ some (fresh + 1) := by
  cases stages with
  | nil => intro s hs; simp [managerInit, wireLoop] at hs
  | cons s0 rest =>
      rw [managerInit_cons]
      intro s hs
      simp only [List.mem_cons] at hs
      rcases hs with rfl | hs
      · simp
      · obtain ⟨j, hj, hjs⟩ := wireRest_output_ge rest _ (fresh + 2) s hs
        rw [hjs]
        intro hc
        rw [Option.some.injEq] at hc
        omega

lemma managerInit_ne_nil (stages : List ProcessService) (fresh : Nat)
    (hne : stages ≠ []) : (managerInit stages fresh).1.services ≠ [] := by
  intro h
  have hl := managerInit_length stages fresh
  rw [h] at hl
  exact hne (List.eq_nil_of_length_eq_zero hl.symm)

lemma managerInit_exit (stages : List ProcessService) (fresh : Nat)
    (hne : stages ≠ []) :
    ∃ s cid, (managerInit stages fresh).1.services.getLast? = some s ∧
      s.output_buffer = some cid ∧ cid ≠ fresh + 1 := by
  have hne2 := managerInit_ne_nil stages fresh hne
  have hg := List.getLast?_eq_getLast _ hne2
  set s := (managerInit stages fresh).1.services.getLast hne2 with hsdef
  have hmem : s ∈ (managerInit stages fresh).1.services := List.getLast_mem hne2
  obtain ⟨_, hbound⟩ := managerInit_all_bound stages fresh s hmem
  obtain ⟨cid, hcid⟩ := Option.isSome_iff_exists.mp hbound
  refine ⟨s, cid, hg, hcid, ?_⟩
  intro hc
  have := managerInit_output_ne_entry stages fresh s hmem
  rw [hcid, hc] at this
  exact this rfl

/-! ### Frontend loop characterisation -/

lemma handleIteration_eq (c : Client) (st : ChanSt (List Nat)) (message : List Nat)
    (s0 sl : ProcessService) (ein eout : Nat)
    (hhead : c.manager.services.head? = some s0) (hin : s0.input_buffer = some ein)
    (hlast : c.manager.services.getLast? = some sl) (hout : sl.output_buffer = some eout)
    (hne : ein ≠ eout) :
    frontendIterSpec c st message ein eout := by
  have hsend : c.manager.send st message = some (chanPut st ein message) := by
    simp [Manager.send, hhead, hin]
  set c1 := if c.running then c
            else { c with running := true, manager := c.manager.start } with hc1
  have hc1services : c1.manager.services = c.manager.services := by
    by_cases h : c.running <;> simp [hc1, h, Manager.start]
  have hc1run : c1.running = true := by
    by_cases h : c.running <;> simp [hc1, h]
  have hc1proc : c1.manager.processes =
      c.manager.processes ++ (if c.running then [] else c.manager.services) := by
    by_cases h : c.running <;> simp [hc1, h, Manager.start]
  have hput_eout : chanPut st ein message eout = st eout := by
    simp [chanPut, Ne.symm hne]
  have hput_ein : chanPut st ein message ein = st ein ++ [message] := by
    simp [chanPut]
  have hlast1 : c1.manager.services.getLast? = some sl := by rw [hc1services, hlast]
  cases he : st eout with
  | nil =>
      have hrecv : c1.manager.receive (chanPut st ein message) false none =
          (RecvOutcome.noneVal, chanPut st ein message) := by
        simp [Manager.receive, hlast1, hout, hput_eout, he]
      have hx : handleIteration c st message =
          some (c1, chanPut st ein message, []) := by
        simp only [handleIteration, hsend, ← hc1, hrecv]
      exact ⟨c1, chanPut st ein message, [], hx, hc1run, hc1services, hc1proc,
        hput_ein, by simp [he]⟩
  | cons d rest =>
      have hrecv : c1.manager.receive (chanPut st ein message) false none =
          (RecvOutcome.got d,
           fun ch => if ch = eout then (chanPut st ein message eout).tail
                     else chanPut st ein message ch) := by
        simp [Manager.receive, hlast1, hout, hput_eout, he]
      have hx : handleIteration c st message =
          some (c1,
            fun ch => if ch = eout then (chanPut st ein message eout).tail
                      else chanPut st ein message ch,
            if d = [] then [] else d) := by
        simp only [handleIteration, hsend, ← hc1, hrecv]
      refine ⟨c1, _, _, hx, hc1run, hc1services, hc1proc, ?_, by simp [he]⟩
      simp [hne, hput_ein]

/-! ### The claims -/

/-- **C1**: constructing a `Manager` from a non-empty list of freshly
constructed (unbound) stages wires stage `i`'s output channel to stage
`i+1`'s input channel, allocates one additional fresh entry channel bound
as stage 0's input (no stage's output), reuses the last stage's bound
output channel as the exit, leaves every stage fully bound, and starts no
workers. -/
theorem manager_init_chain_construction (stages : List ProcessService) (fresh : Nat)
    (hne : stages ≠ [])
    (_hunbound : ∀ s ∈ stages, s.input_buffer = none ∧ s.output_buffer = none) :
    chainWiringSpec stages fresh :=
  ⟨managerInit_length stages fresh, managerInit_chain stages fresh,
   managerInit_all_bound stages fresh, managerInit_head_input stages fresh hne,
   managerInit_output_ne_entry stages fresh, managerInit_exit stages fresh hne,
   managerInit_processes stages fresh⟩

/-- Witness for C1: a concrete two-stage chain of unbound stages. -/
theorem manager_init_chain_construction_witness :
    (([⟨none, none⟩, ⟨none, none⟩] : List ProcessService) ≠ [] ∧
      ∀ s ∈ ([⟨none, none⟩, ⟨none, none⟩] : List ProcessService),
        s.input_buffer = none ∧ s.output_buffer = none) ∧
    chainWiringSpec [⟨none, none⟩, ⟨none, none⟩] 0 :=
  ⟨⟨by decide, by decide⟩,
   manager_init_chain_construction [⟨none, none⟩, ⟨none, none⟩] 0 (by decide) (by decide)⟩

/-- **C4**: `start` appends one worker handle per stage (each handle
executing that stage's loop) to the recorded process list; on a freshly
constructed chain of `n` stages one call records exactly `n` handles, and a
second call records a second full duplicate set of `n` more. -/
theorem start_spawns_one_worker_per_stage (stages : List ProcessService) (fresh : Nat) :
    (∀ m : Manager, m.start.processes = m.processes ++ m.services) ∧
    ((managerInit stages fresh).1.start).processes = (managerInit stages fresh).1.services ∧
    ((managerInit stages fresh).1.start).processes.length = stages.length ∧
    ((managerInit stages fresh).1.start.start).processes.length = 2 * stages.length := by
  refine ⟨fun m => rfl, ?_, ?_, ?_⟩
  · simp [Manager.start, managerInit_processes]
  · simp [Manager.start, managerInit_processes, managerInit_length]
  · simp [Manager.start, managerInit_processes, managerInit_length]
    omega

/-- **C10**: `__enter__` is the same state change as `start` (one new
worker handle appended per stage, services untouched) and `__exit__`
performs no action. -/
theorem enter_equiv_start_exit_noop (m : Manager) :
    m.enter = m.start ∧ m.enter.services = m.services ∧
    m.enter.processes = m.processes ++ m.services ∧
    (∀ a b c, m.exitCtx a b c = m) :=
  ⟨rfl, rfl, rfl, fun _ _ _ => rfl⟩

/-- **C3**: on any session over a wired non-empty chain (whatever its
process list and channel state), `receive(block=False)` with an empty exit
channel returns the `None` marker with the state untouched — no blocking,
no error — and with a non-empty exit channel returns the front unit
immediately. -/
theorem receive_nonblocking_no_data (α : Type) (stages : List ProcessService)
    (fresh : Nat) (procs : List ProcessService) (hne : stages ≠ []) :
    recvPollSpec α { services := (managerInit stages fresh).1.services,
                     processes := procs } := by
  obtain ⟨s, cid, hs, hcid, _⟩ := managerInit_exit stages fresh hne
  refine ⟨s, cid, hs, hcid, ?_⟩
  intro st t
  constructor
  · intro hempty
    simp [Manager.receive, hs, hcid, hempty]
  · intro d rest hd
    simp [Manager.receive, hs, hcid, hd]

/-- Witness for C3 on a one-stage chain. -/
theorem receive_nonblocking_no_data_witness :
    ([(⟨none, none⟩ : ProcessService)] ≠ []) ∧
    recvPollSpec (List Nat)
      { services := (managerInit [⟨none, none⟩] 0).1.services, processes := [] } :=
  ⟨by decide, receive_nonblocking_no_data (List Nat) [⟨none, none⟩] 0 [] (by decide)⟩

/-- **C7**: on any session over a wired non-empty chain,
`receive(block=True)` returns the unit available on the exit channel when
the call resolves; if the exit channel is still empty when the given
timeout expires, it fails with the `queue.Empty` timeout condition rather
than returning a value. -/
theorem receive_blocking_returns_or_times_out (α : Type) (stages : List ProcessService)
    (fresh : Nat) (procs : List ProcessService) (hne : stages ≠ []) :
    recvBlockSpec α { services := (managerInit stages fresh).1.services,
                      processes := procs } := by
  obtain ⟨s, cid, hs, hcid, _⟩ := managerInit_exit stages fresh hne
  refine ⟨s, cid, hs, hcid, ?_⟩
  intro st
  constructor
  · intro d rest hd t
    simp [Manager.receive, hs, hcid, hd]
  · intro hempty dur
    simp [Manager.receive, hs, hcid, hempty]

/-- Witness for C7 on a two-stage chain. -/
theorem receive_blocking_returns_or_times_out_witness :
    (([⟨none, none⟩, ⟨none, none⟩] : List ProcessService) ≠ []) ∧
    recvBlockSpec (List Nat)
      { services := (managerInit [⟨none, none⟩, ⟨none, none⟩] 5).1.services,
        processes := [] } :=
  ⟨by decide,
   receive_blocking_returns_or_times_out (List Nat) [⟨none, none⟩, ⟨none, none⟩] 5 []
     (by decide)⟩

/-- **C5**: for a chain of length 1 whose single stage is the identity
(`AnswerService`) transform, `send x` followed by one iteration of the
worker loop and `receive(block=True)` returns `x` unchanged, for every
byte sequence `x` and every queue-id allocation base. -/
theorem identity_chain_round_trip (x : List Nat) (fresh : Nat) :
    identityRoundTrip x fresh = some (RecvOutcome.got x) := by
  simp [identityRoundTrip, managerInit_cons, wireRest, Manager.send,
        AnswerService.actStep, Manager.receive, chanPut]

/-- **C6**: each frontend-loop iteration produces exactly one outbound
response: it appends the inbound message to the session's entry channel,
starts the workers (marking the session running) only when it was not yet
running, polls `receive(block=False)`, substitutes the explicit empty
payload when no data was available, and transmits the payload (real or
empty). -/
theorem frontend_loop_one_response_per_message (c : Client) (st : ChanSt (List Nat))
    (message : List Nat) (s0 sl : ProcessService) (ein eout : Nat)
    (hhead : c.manager.services.head? = some s0) (hin : s0.input_buffer = some ein)
    (hlast : c.manager.services.getLast? = some sl) (hout : sl.output_buffer = some eout)
    (hne : ein ≠ eout) :
    frontendIterSpec c st message ein eout :=
  handleIteration_eq c st message s0 sl ein eout hhead hin hlast hout hne

/-- Witness for C6: a not-yet-running session over a one-stage chain,
empty channels, inbound message `[3]`. -/
theorem frontend_loop_one_response_per_message_witness :
    ((⟨(managerInit [⟨none, none⟩] 0).1, 7, false⟩ :
        Client).manager.services.head? = some ⟨some 1, some 0⟩ ∧
      (⟨(managerInit [⟨none, none⟩] 0).1, 7, false⟩ :
        Client).manager.services.getLast? = some ⟨some 1, some 0⟩ ∧
      (1 : Nat) ≠ 0) ∧
    frontendIterSpec ⟨(managerInit [⟨none, none⟩] 0).1, 7, false⟩
      (fun _ => []) [3] 1 0 :=
  ⟨⟨by decide, by decide, by decide⟩,
   frontend_loop_one_response_per_message ⟨(managerInit [⟨none, none⟩] 0).1, 7, false⟩
     (fun _ => []) [3] ⟨some 1, some 0⟩ ⟨some 1, some 0⟩ 1 0
     (by decide) (by decide) (by decide) (by decide) (by decide)⟩

/-- **C9**: the empty-payload substitution triggers on any falsy received
value: an iteration in which the pipeline produced no output and an
iteration in which the pipeline genuinely produced the empty byte string
both transmit the empty payload, so the two are indistinguishable at the
transport boundary. -/
theorem falsy_empty_output_indistinguishable (c : Client) (stA stB : ChanSt (List Nat))
    (message : List Nat) (s0 sl : ProcessService) (ein eout : Nat)
    (hhead : c.manager.services.head? = some s0) (hin : s0.input_buffer = some ein)
    (hlast : c.manager.services.getLast? = some sl) (hout : sl.output_buffer = some eout)
    (hne : ein ≠ eout) (hA : stA eout = []) (hB : ∃ rest, stB eout = [] :: rest) :
    iterationResponse c stA message = some [] ∧
    iterationResponse c stB message = some [] := by
  obtain ⟨c2, st2, resp, hx, _, _, _, _, hresp⟩ :=
    handleIteration_eq c stA message s0 sl ein eout hhead hin hlast hout hne
  obtain ⟨rest, hBr⟩ := hB
  obtain ⟨c2b, st2b, respb, hxb, _, _, _, _, hrespb⟩ :=
    handleIteration_eq c stB message s0 sl ein eout hhead hin hlast hout hne
  constructor
  · rw [iterationResponse, hx]
    simp [hresp, hA]
  · rw [iterationResponse, hxb]
    simp [hrespb, hBr]

/-- Witness for C9: same session, exit channel empty versus exit channel
holding one genuinely produced empty byte string. -/
theorem falsy_empty_output_indistinguishable_witness :
    ((⟨(managerInit [⟨none, none⟩] 0).1, 9, true⟩ :
        Client).manager.services.head? = some ⟨some 1, some 0⟩ ∧
      (fun ch => if ch = 0 then [([] : List Nat)] else []) 0 = [[]] ∧
      (1 : Nat) ≠ 0) ∧
    (iterationResponse ⟨(managerInit [⟨none, none⟩] 0).1, 9, true⟩
        (fun _ => []) [4] = some [] ∧
      iterationResponse ⟨(managerInit [⟨none, none⟩] 0).1, 9, true⟩
        (fun ch => if ch = 0 then [([] : List Nat)] else []) [4] = some []) :=
  ⟨⟨by decide, by decide, by decide⟩,
   falsy_empty_output_indistinguishable ⟨(managerInit [⟨none, none⟩] 0).1, 9, true⟩
     (fun _ => []) (fun ch => if ch = 0 then [([] : List Nat)] else []) [4]
     ⟨some 1, some 0⟩ ⟨some 1, some 0⟩ 1 0
     (by decide) (by decide) (by decide) (by decide) (by decide) (by decide)
     ⟨[], by decide⟩⟩

/-- **C8 counterexample**: binding is not once-only — `set_input_buffer`
and `set_output_buffer` on an already fully bound stage simply overwrite
the previous binding, so rebinding after the first binding is possible. -/
theorem rebinding_not_prevented :
    ((⟨some 0, some 1⟩ : ProcessService).set_input_buffer 2).input_buffer = some 2 ∧
    ((⟨some 0, some 1⟩ : ProcessService).set_input_buffer 2).input_buffer ≠ some 0 ∧
    ((⟨some 0, some 1⟩ : ProcessService).set_output_buffer 3).output_buffer = some 3 ∧
    ((⟨some 0, some 1⟩ : ProcessService).set_output_buffer 3).output_buffer ≠ some 1 :=
  ⟨rfl, by decide, rfl, by decide⟩

/-- **C8 amended**: the setters overwrite unconditionally (no once-only
guard), but in the `Manager` workflow each stage of a constructed chain is
fully bound, and every worker handle `start` records is such a fully bound
stage — so no stage managed by a chain runs before both its channels are
bound. -/
theorem binding_overwrites_but_started_stages_bound (stages : List ProcessService)
    (fresh : Nat) :
    (∀ (s : ProcessService) (b : Nat),
        (s.set_input_buffer b).input_buffer = some b ∧
        (s.set_output_buffer b).output_buffer = some b) ∧
    (∀ s ∈ ((managerInit stages fresh).1.start).processes,
        s.input_buffer.isSome ∧ s.output_buffer.isSome) := by
  refine ⟨fun s b => ⟨rfl, rfl⟩, ?_⟩
  intro s hs
  have hps : ((managerInit stages fresh).1.start).processes =
      (managerInit stages fresh).1.services := by
    simp [Manager.start, managerInit_processes]
  rw [hps] at hs
  exact managerInit_all_bound stages fresh s hs

/-- **C2** (code bug): on a transcription event with an empty candidate
list, `receive_transcript` raises `IndexError` (from `transcript[0]`) and
the exception propagates out of `on_transcription`, instead of skipping the
event or emitting an empty-string marker; on a non-empty list it returns
the top alternative. -/
theorem empty_transcription_raises :
    receive_transcript [] = Except.error "IndexError: list index out of range" ∧
    on_transcription ⟨some 0, some 1⟩ (fun _ => []) [] =
      Except.error "IndexError: list index out of range" ∧
    (∀ d rest, receive_transcript (d :: rest) = Except.ok d.transcript) :=
  ⟨rfl, rfl, fun _ _ => rfl⟩
